import Mathlib

/-!
Verification of the deno-mysql client facade (`Client`) and the sqlx-based
connection pool (`MysqlClientPool` / `MysqlPoolClient`).

The embedding follows the TypeScript source. Effects are made explicit:
a connection carries its state and the ordered trace of SQL statements that
were sent over it; pool operations return the new pool state together with an
ordered log of the primitive actions (event dispatches, stack pushes/pops,
connection closes) they performed, so that ordering claims can be stated as
facts about the log.

External collaborators (the `Connection` protocol layer and the
`SqlxDeferredStack` from `@halvardm/sqlx`) are not part of the sources; they
are modelled from the spec where a claim needs them, and this is recorded in
each such definition's doc comment.
-/

/-- Modelled from the spec: the connection state enum of the external
`Connection` collaborator, states `{Disconnected, Connected, Closed}` (§3). -/
inductive ConnectionState where
  | Disconnected
  | Connected
  | Closed
deriving DecidableEq, Repr

/-- A connection as the transaction layer observes it: its current state and
the ordered trace of SQL statements executed through it. -/
structure TConn where
  state : ConnectionState
  trace : List String
deriving DecidableEq, Repr

/-- Modelled from the spec: the behaviour of the external connection's
`execute(sql)` — given the connection state and the statement, it either
succeeds (`none`) or raises an error (`some e`), and yields the connection
state afterwards (§6: errors are propagated verbatim from the Connection
layer; executing may tear the session down). -/
structure ExecBeh (ε : Type) where
  exec : ConnectionState → String → Option ε × ConnectionState

/-- Run `connection.execute(sql)`: the statement is appended to the
connection's trace and the behaviour decides success and the next state. -/
def execOn {ε : Type} (beh : ExecBeh ε) (c : TConn) (sql : String) :
    Option ε × TConn :=
  let r := beh.exec c.state sql
  (r.1, { state := r.2, trace := c.trace ++ [sql] })

/-- A transaction processor: given the connection state it either returns a
value or raises, executes a list of statements on the connection (appended to
its trace, in order) and leaves the connection in some state.  This is the
shape of `TransactionProcessor<T>` as the core observes it. -/
structure Processor (T ε : Type) where
  run : ConnectionState → Except ε T × ConnectionState × List String

/-- Run a processor on a connection: its statements extend the trace. -/
def Processor.runOn {T ε : Type} (p : Processor T ε) (c : TConn) :
    Except ε T × TConn :=
  let r := p.run c.state
  (r.1, { state := r.2.1, trace := c.trace ++ r.2.2 })

/-- The `catch (error)` block of `Client.transaction` (part_000 lines
151-157): if the connection is still `CONNECTED`, log the original error's
message and execute `ROLLBACK`, then rethrow; in JS an exception raised by
the `await connection.execute("ROLLBACK")` itself propagates out of the catch
block, replacing the original error. -/
def Client.transactionCatch {T ε : Type} (beh : ExecBeh ε) (e : ε) (c : TConn) :
    Except ε T × TConn :=
  if c.state = ConnectionState.Connected then
    let r := execOn beh c "ROLLBACK"
    match r.1 with
    | some e2 => (Except.error e2, r.2)
    | none => (Except.error e, r.2)
  else
    (Except.error e, c)

/-- The function `Client.transaction` passes to `useConnection` (part_000
lines 145-158): `BEGIN`, then the processor, then `COMMIT`; any error raised
in the try block enters the catch block. -/
def Client.transactionFn {T ε : Type} (beh : ExecBeh ε) (proc : Processor T ε)
    (c : TConn) : Except ε T × TConn :=
  let rb := execOn beh c "BEGIN"
  match rb.1 with
  | some e => Client.transactionCatch beh e rb.2
  | none =>
    let rp := proc.runOn rb.2
    match rp.1 with
    | Except.error e => Client.transactionCatch beh e rp.2
    | Except.ok v =>
      let rc := execOn beh rp.2 "COMMIT"
      match rc.1 with
      | some e => Client.transactionCatch beh e rc.2
      | none => (Except.ok v, rc.2)

/-- Which branch of the `finally` cleanup in `Client.useConnection` ran:
`connection.returnToPool()` or `connection.removeFromPool()`. -/
inductive Cleanup where
  | returned
  | removed
deriving DecidableEq, Repr

/-- Outcome of `Client.useConnection`: the facade either throws
`MysqlError("Unconnected")` before borrowing, suspends forever on an empty
pool, or completes with the body's result, the pool contents afterwards, the
cleanup branch taken, and the connection's final state. -/
inductive UseOutcome (T ε : Type) where
  | unconnected
  | suspended
  | completed (r : Except ε T) (pool : List TConn) (cl : Cleanup) (conn : TConn)

/-- `Client.useConnection` (part_000 lines 123-137): throw `Unconnected` when
there is no pool; otherwise pop a connection, run `fn`, and in the `finally`
block remove the connection from the pool when its state is `CLOSED`, else
return it.  The pool collaborator (`ConnectionPool` of the old driver, not in
the sources) is modelled from the spec as a LIFO list of idle connections:
`pop` takes the front and suspends when empty, `returnToPool` pushes back to
the front (§4.1 LIFO), `removeFromPool` drops the slot (§4.1 destroy). -/
def Client.useConnection {T ε : Type} (pool : Option (List TConn))
    (fn : TConn → Except ε T × TConn) : UseOutcome T ε :=
  match pool with
  | none => UseOutcome.unconnected
  | some [] => UseOutcome.suspended
  | some (c :: rest) =>
    let r := fn c
    if r.2.state = ConnectionState.Closed then
      UseOutcome.completed r.1 rest Cleanup.removed r.2
    else
      UseOutcome.completed r.1 (r.2 :: rest) Cleanup.returned r.2

/-- `Client.query` (part_000 lines 106-110): borrow a connection and run
`connection.query(sql)` on it; the query is one statement on the wire. -/
def Client.query {ε : Type} (pool : Option (List TConn)) (beh : ExecBeh ε)
    (sql : String) : UseOutcome Unit ε :=
  Client.useConnection pool (fun c =>
    let r := execOn beh c sql
    match r.1 with
    | some e => (Except.error e, r.2)
    | none => (Except.ok (), r.2))

/-- `Client.execute` (part_000 lines 117-121): borrow a connection and run
`connection.execute(sql)` on it. -/
def Client.execute {ε : Type} (pool : Option (List TConn)) (beh : ExecBeh ε)
    (sql : String) : UseOutcome Unit ε :=
  Client.useConnection pool (fun c =>
    let r := execOn beh c sql
    match r.1 with
    | some e => (Except.error e, r.2)
    | none => (Except.ok (), r.2))

/-- `Client.transaction` (part_000 lines 144-159): the transaction body run
through `useConnection`. -/
def Client.transaction {T ε : Type} (pool : Option (List TConn))
    (beh : ExecBeh ε) (proc : Processor T ε) : UseOutcome T ε :=
  Client.useConnection pool (Client.transactionFn beh proc)

/-- The error shape the pool's release path inspects: whether the value is a
`SqlxError` instance and its message (pool.ts line 149 checks both). -/
structure SqlxErr where
  isSqlx : Bool
  message : String
deriving DecidableEq, Repr

/-- The error `SqlxDeferredStack.push` raises at capacity. -/
def maxPoolErr : SqlxErr := { isSqlx := true, message := "Max pool size reached" }

/-- The lifecycle event kinds dispatched on the pool's event target. -/
inductive EventKind where
  | connect
  | close
  | acquire
  | release
  | destroy
deriving DecidableEq, Repr

/-- A primitive observable action of a pool operation, in program order:
an event dispatch, a push to / pop from the idle stack, an underlying
`connection.connect()`, or an underlying `connection.close()`.  Clients are
identified by their `id`. -/
inductive PAction where
  | event (k : EventKind) (id : Nat)
  | pushed (id : Nat)
  | popped (id : Nat)
  | connConnect (id : Nat)
  | connClose (id : Nat)
deriving DecidableEq, Repr

/-- The client id an action concerns. -/
def PAction.id : PAction → Nat
  | PAction.event _ i => i
  | PAction.pushed i => i
  | PAction.popped i => i
  | PAction.connConnect i => i
  | PAction.connClose i => i

/-- A `MysqlPoolClient` (pool.ts lines 33-56): wraps one `MysqlConnection`
(represented by its state) and carries whether `MysqlClientPool.connect()`
has overwritten the instance's `release` method (pool.ts line 107). -/
structure MysqlPoolClient where
  id : Nat
  connState : ConnectionState
  releaseOverridden : Bool
deriving DecidableEq, Repr

/-- The mutable state of a `MysqlClientPool` (pool.ts lines 58-95): the
construction-time options `maxSize` and `lazyInitialization`, the
`deferredStack.elements` as a LIFO list (front = most recently pushed), and
the `#connected` flag. -/
structure PoolState where
  maxSize : Nat
  lazyInitialization : Bool
  stack : List MysqlPoolClient
  connected : Bool
deriving DecidableEq, Repr

/-- Modelled from the spec: `SqlxDeferredStack.push` of `@halvardm/sqlx`
(not in the sources).  Insertion that would exceed `maxSize` fails with the
`SqlxError` "Max pool size reached" (§4.1 release, §6 error surface);
otherwise the element is inserted so that it is the next one handed out
(§3: LIFO, most recently released first). -/
def stackPush (maxSize : Nat) (st : List MysqlPoolClient)
    (c : MysqlPoolClient) : Except SqlxErr (List MysqlPoolClient) :=
  if maxSize ≤ st.length then Except.error maxPoolErr
  else Except.ok (c :: st)

/-- Modelled from the spec: `SqlxDeferredStack.pop` of `@halvardm/sqlx`
(not in the sources).  Removes and returns the most recently pushed element
(§3: LIFO); on an empty stack the call suspends (§4.1 acquire), modelled as
`none`. -/
def stackPop (st : List MysqlPoolClient) :
    Option (MysqlPoolClient × List MysqlPoolClient) :=
  match st with
  | [] => none
  | c :: rest => some (c, rest)

/-- Result of `MysqlClientPool.release`: the raised error (if any), the pool
state afterwards, the released client afterwards (its connection may have
been closed), and the action log. -/
structure RelResult where
  err : Option SqlxErr
  pool : PoolState
  client : MysqlPoolClient
  log : List PAction
deriving DecidableEq, Repr

/-- The `catch (e)` block of `MysqlClientPool.release` (pool.ts lines
148-156): a `SqlxError` with message "Max pool size reached" closes the
client's connection and is rethrown; any other error is rethrown unchanged
with nothing closed and nothing mutated. -/
def MysqlClientPool.releaseCatch (p : PoolState) (c : MysqlPoolClient)
    (e : SqlxErr) (log : List PAction) : RelResult :=
  if e.isSqlx ∧ e.message = "Max pool size reached" then
    { err := some e, pool := p,
      client := { c with connState := ConnectionState.Closed },
      log := log ++ [PAction.connClose c.id] }
  else
    { err := some e, pool := p, client := c, log := log }

/-- `MysqlClientPool.release` (pool.ts lines 142-157): dispatch the release
event, then try `deferredStack.push(client)`; failures go to the catch
block. -/
def MysqlClientPool.release (p : PoolState) (c : MysqlPoolClient) : RelResult :=
  let log := [PAction.event EventKind.release c.id]
  match stackPush p.maxSize p.stack c with
  | Except.ok st =>
    { err := none, pool := { p with stack := st }, client := c,
      log := log ++ [PAction.pushed c.id] }
  | Except.error e => MysqlClientPool.releaseCatch p c e log

/-- Result of a completed `MysqlClientPool.acquire`. -/
structure AcqResult where
  client : MysqlPoolClient
  pool : PoolState
  log : List PAction
deriving DecidableEq, Repr

/-- `MysqlClientPool.acquire` (pool.ts lines 133-140): pop a client from the
deferred stack (suspending — `none` — when it is empty), then dispatch the
acquire event. -/
def MysqlClientPool.acquire (p : PoolState) : Option AcqResult :=
  match stackPop p.stack with
  | none => none
  | some (c, rest) =>
    some { client := c, pool := { p with stack := rest },
           log := [PAction.popped c.id, PAction.event EventKind.acquire c.id] }

/-- Result of `MysqlClientPool.close` / `connect`: pool state and log. -/
structure PoolOpResult where
  err : Option SqlxErr
  pool : PoolState
  log : List PAction
deriving DecidableEq, Repr

/-- `MysqlClientPool.close` (pool.ts lines 122-131): set `#connected` to
false, then for every client in `deferredStack.elements`, in order, dispatch
a close event and close its underlying connection.  The stack itself is not
emptied; its clients end with closed connections. -/
def MysqlClientPool.close (p : PoolState) : PoolOpResult :=
  { err := none,
    pool := { p with
      connected := false
      stack := p.stack.map
        (fun c => { c with connState := ConnectionState.Closed }) },
    log := p.stack.flatMap
      (fun c => [PAction.event EventKind.close c.id, PAction.connClose c.id]) }

/-- One iteration of the loop in `MysqlClientPool.connect` (pool.ts lines
98-117) with fresh id `i`: create the client (its `release` is overwritten,
line 107), eagerly connect and dispatch a connect event unless
`lazyInitialization`, then push onto the deferred stack.  When the push
throws, the eager connect and the connect event have already happened: the
error carries the actions performed before the failing push. -/
def MysqlClientPool.connectStep (p : PoolState) (i : Nat) :
    Except (SqlxErr × List PAction) (PoolState × List PAction) :=
  let c0 : MysqlPoolClient :=
    { id := i, connState := ConnectionState.Disconnected,
      releaseOverridden := true }
  let r :=
    if p.lazyInitialization then (c0, ([] : List PAction))
    else ({ c0 with connState := ConnectionState.Connected },
          [PAction.connConnect i, PAction.event EventKind.connect i])
  match stackPush p.maxSize p.stack r.1 with
  | Except.error e => Except.error (e, r.2)
  | Except.ok st =>
    Except.ok ({ p with stack := st }, r.2 ++ [PAction.pushed i])

/-- The loop of `MysqlClientPool.connect` over the remaining fresh ids; a
push failure propagates out of `connect`, leaving the mutations made so far
— including the failing iteration's own pre-push actions — in place and
`#connected` untouched. -/
def MysqlClientPool.connectGo (p : PoolState) (ids : List Nat)
    (log : List PAction) : PoolOpResult :=
  match ids with
  | [] => { err := none, pool := { p with connected := true }, log := log }
  | i :: rest =>
    match MysqlClientPool.connectStep p i with
    | Except.error el => { err := some el.1, pool := p, log := log ++ el.2 }
    | Except.ok r => MysqlClientPool.connectGo r.1 rest (log ++ r.2)

/-- `MysqlClientPool.connect` (pool.ts lines 97-120): run the provisioning
loop `maxSize` times (fresh client ids `startId, startId+1, ...`), then set
`#connected` to true. -/
def MysqlClientPool.connect (p : PoolState) (startId : Nat) : PoolOpResult :=
  MysqlClientPool.connectGo p ((List.range p.maxSize).map (fun k => startId + k)) []

/-- `MysqlClientPool.destroy` (pool.ts lines 159-164): dispatch the destroy
event, then close the client's connection; nothing is pushed back. -/
def MysqlClientPool.destroy (p : PoolState) (c : MysqlPoolClient) : RelResult :=
  { err := none, pool := p,
    client := { c with connState := ConnectionState.Closed },
    log := [PAction.event EventKind.destroy c.id, PAction.connClose c.id] }

/-- Calling `client.release()` on a `MysqlPoolClient` (pool.ts lines 45-51):
when `MysqlClientPool.connect()` has overwritten the method (line 107) it
forwards to `pool.release(client)`; otherwise the class body runs and throws
`Error("Method not implemented.")`, touching nothing. -/
def MysqlPoolClient.releaseRun (p : PoolState) (c : MysqlPoolClient) : RelResult :=
  if c.releaseOverridden then MysqlClientPool.release p c
  else { err := some { isSqlx := false, message := "Method not implemented." },
         pool := p, client := c, log := [] }

/-- `MysqlPoolClient[Symbol.asyncDispose]` (pool.ts lines 53-55): awaits
`this.release()`. -/
def MysqlPoolClient.asyncDispose (p : PoolState) (c : MysqlPoolClient) : RelResult :=
  MysqlPoolClient.releaseRun p c

/-- The part of `ClientConfig` with a default in `Client.connect` (part_000
lines 13-38): `none` means the caller did not supply the field. -/
structure ClientConfig where
  hostname : Option String := none
  username : Option String := none
  port : Option Nat := none
  poolSize : Option Nat := none
  timeout : Option Nat := none
  idleTimeout : Option Nat := none
deriving DecidableEq, Repr

/-- The frozen `this.config` after the defaults spread. -/
structure ResolvedConfig where
  hostname : String
  username : String
  port : Nat
  poolSize : Nat
  timeout : Nat
  idleTimeout : Nat
deriving DecidableEq, Repr

/-- The config merge in `Client.connect` (part_000 lines 84-93): the spread
`{ ...defaults, ...config }` keeps a caller-supplied value and falls back to
the default otherwise. -/
def Client.mergeConfig (c : ClientConfig) : ResolvedConfig :=
  { hostname := c.hostname.getD "127.0.0.1"
    username := c.username.getD "root"
    port := c.port.getD 3306
    poolSize := c.poolSize.getD 1
    timeout := c.timeout.getD (30 * 1000)
    idleTimeout := c.idleTimeout.getD (4 * 3600 * 1000) }

/-- `Client.connect` (part_000 lines 83-99): freeze the merged config and
construct the `ConnectionPool` with `this.config.poolSize || 10` — a falsy
(zero) `poolSize` falls through to 10.  Returns the frozen config and the
size the pool is constructed with. -/
def Client.connect (c : ClientConfig) : ResolvedConfig × Nat :=
  let cfg := Client.mergeConfig c
  (cfg, if cfg.poolSize = 0 then 10 else cfg.poolSize)

/-- The client a `MysqlClientPool.connect` iteration provisions with id `i`:
its `release` is overwritten, and its connection is open iff the pool is not
lazily initialized. -/
def provClient (lazy : Bool) (i : Nat) : MysqlPoolClient :=
  { id := i
    connState := if lazy then ConnectionState.Disconnected
                 else ConnectionState.Connected
    releaseOverridden := true }

/-- The actions one `MysqlClientPool.connect` iteration with id `i` logs:
an underlying connect and a connect event exactly when the pool is not
lazily initialized, then the push. -/
def provLog (lazy : Bool) (i : Nat) : List PAction :=
  if lazy then [PAction.pushed i]
  else [PAction.connConnect i, PAction.event EventKind.connect i,
        PAction.pushed i]

/-- The result a completed `useConnection` borrow produced, if any. -/
def UseOutcome.result? {T ε : Type} : UseOutcome T ε → Option (Except ε T)
  | UseOutcome.completed r _ _ _ => some r
  | _ => none

/-- A connection behaviour where every statement succeeds and the session
stays connected. -/
def behOk : ExecBeh Nat := { exec := fun _ _ => (none, ConnectionState.Connected) }

/-- A connection behaviour where `ROLLBACK` raises error `2` and every other
statement succeeds, the session staying connected throughout. -/
def behRollbackFails : ExecBeh Nat :=
  { exec := fun _ sql =>
      if sql = "ROLLBACK" then (some 2, ConnectionState.Connected)
      else (none, ConnectionState.Connected) }

/-- A processor that executes one `INSERT` and returns `42`. -/
def procOk : Processor Nat Nat :=
  { run := fun _ => (Except.ok 42, ConnectionState.Connected, ["INSERT"]) }

/-- A processor that executes one `INSERT` and then raises error `1`,
leaving the session connected. -/
def procFail : Processor Nat Nat :=
  { run := fun _ => (Except.error 1, ConnectionState.Connected, ["INSERT"]) }

/-- A processor that executes one `INSERT`, then raises error `1` with the
session torn down to `Closed`. -/
def procFailClosed : Processor Nat Nat :=
  { run := fun _ => (Except.error 1, ConnectionState.Closed, ["INSERT"]) }

/-- A fresh connected connection with an empty trace. -/
def connOk : TConn := { state := ConnectionState.Connected, trace := [] }

/-- A sample pool client whose `release` has not been overwritten. -/
def rawClient : MysqlPoolClient :=
  { id := 7, connState := ConnectionState.Connected, releaseOverridden := false }

/-- A sample pool client as `MysqlClientPool.connect` produces it. -/
def pooledClient (i : Nat) : MysqlPoolClient :=
  { id := i, connState := ConnectionState.Connected, releaseOverridden := true }

/-- A sample pool state with capacity 3 and one idle client. -/
def samplePool : PoolState :=
  { maxSize := 3, lazyInitialization := false,
    stack := [pooledClient 0], connected := true }

/-- A sample pool state that is already at capacity. -/
def fullPool : PoolState :=
  { maxSize := 1, lazyInitialization := false,
    stack := [pooledClient 0], connected := true }

/-- A sample empty eager pool of capacity 1, for the double-connect run. -/
def emptyPool1 : PoolState :=
  { maxSize := 1, lazyInitialization := false, stack := [], connected := false }

/-- A sample pool with two idle clients and one (id 2) checked out. -/
def poolTwoIdle : PoolState :=
  { maxSize := 3, lazyInitialization := false,
    stack := [pooledClient 0, pooledClient 1], connected := true }

/-- C9: when `Client.connect` is called with a config explicitly setting
`poolSize` to 0, the frozen config records `poolSize = 0` (the spread
overrides the default of 1), but the `ConnectionPool` is constructed with
size 10, because 0 is falsy and falls through `poolSize || 10`. -/
theorem Client.connect_poolSize_zero (c : ClientConfig)
    (h : c.poolSize = some 0) :
    (Client.connect c).1.poolSize = 0 ∧ (Client.connect c).2 = 10 := by
  simp [Client.connect, Client.mergeConfig, h]

/-- Witness for C9 at the config `{ poolSize: 0 }`. -/
theorem Client.connect_poolSize_zero_witness :
    (Client.connect { poolSize := some 0 }).1.poolSize = 0 ∧
    (Client.connect { poolSize := some 0 }).2 = 10 :=
  Client.connect_poolSize_zero { poolSize := some 0 } rfl

/-- C10: on a `MysqlPoolClient` whose `release` was not overwritten by
`MysqlClientPool.connect()`, both `release()` and `Symbol.asyncDispose`
raise `Error("Method not implemented.")` and mutate nothing: the pool state
and the client come back unchanged and no action is performed. -/
theorem MysqlPoolClient.release_not_overridden (p : PoolState)
    (c : MysqlPoolClient) (h : c.releaseOverridden = false) :
    MysqlPoolClient.releaseRun p c =
      { err := some { isSqlx := false, message := "Method not implemented." },
        pool := p, client := c, log := [] }
    ∧ MysqlPoolClient.asyncDispose p c =
      { err := some { isSqlx := false, message := "Method not implemented." },
        pool := p, client := c, log := [] } := by
  constructor <;>
    simp [MysqlPoolClient.releaseRun, MysqlPoolClient.asyncDispose, h]

/-- Witness for C10 on a raw (non-pool-produced) client. -/
theorem MysqlPoolClient.release_not_overridden_witness :
    MysqlPoolClient.releaseRun samplePool rawClient =
      { err := some { isSqlx := false, message := "Method not implemented." },
        pool := samplePool, client := rawClient, log := [] }
    ∧ MysqlPoolClient.asyncDispose samplePool rawClient =
      { err := some { isSqlx := false, message := "Method not implemented." },
        pool := samplePool, client := rawClient, log := [] } :=
  MysqlPoolClient.release_not_overridden samplePool rawClient rfl

/-- C5: `MysqlClientPool.release` dispatches the release event first (it is
the head of the action log, before any push or close); when the push would
exceed `maxSize` it fails with the "Max pool size reached" `SqlxError`, the
client's connection is closed, and that error is propagated with the pool
unchanged; and the catch block rethrows any other error unchanged, closing
nothing and mutating nothing. -/
theorem MysqlClientPool.release_spec (p : PoolState) (c : MysqlPoolClient)
    (e : SqlxErr) :
    (MysqlClientPool.release p c).log.head? =
        some (PAction.event EventKind.release c.id)
  ∧ (p.maxSize ≤ p.stack.length →
      MysqlClientPool.release p c =
        { err := some maxPoolErr, pool := p,
          client := { c with connState := ConnectionState.Closed },
          log := [PAction.event EventKind.release c.id,
                  PAction.connClose c.id] })
  ∧ (¬(e.isSqlx = true ∧ e.message = "Max pool size reached") →
      ∀ log, MysqlClientPool.releaseCatch p c e log =
        { err := some e, pool := p, client := c, log := log }) := by
  refine ⟨?_, ?_, ?_⟩
  · by_cases hfull : p.maxSize ≤ p.stack.length <;>
      simp [MysqlClientPool.release, stackPush, hfull,
        MysqlClientPool.releaseCatch, maxPoolErr]
  · intro hfull
    simp [MysqlClientPool.release, stackPush, hfull,
      MysqlClientPool.releaseCatch, maxPoolErr]
  · intro h log
    simp only [MysqlClientPool.releaseCatch, if_neg h]

/-- Witness for C5 on a full pool and on a non-capacity error. -/
theorem MysqlClientPool.release_spec_witness :
    (MysqlClientPool.release fullPool (pooledClient 1)).log.head? =
        some (PAction.event EventKind.release 1)
  ∧ MysqlClientPool.release fullPool (pooledClient 1) =
      { err := some maxPoolErr, pool := fullPool,
        client := { pooledClient 1 with connState := ConnectionState.Closed },
        log := [PAction.event EventKind.release 1, PAction.connClose 1] }
  ∧ MysqlClientPool.releaseCatch fullPool (pooledClient 1)
      { isSqlx := false, message := "boom" } [] =
      { err := some { isSqlx := false, message := "boom" },
        pool := fullPool, client := pooledClient 1, log := [] } := by
  have h := MysqlClientPool.release_spec fullPool (pooledClient 1)
    { isSqlx := false, message := "boom" }
  exact ⟨h.1, h.2.1 (by decide), h.2.2 (by decide) []⟩

/-- C1: when `BEGIN` succeeds, the processor returns `v` without raising,
and `COMMIT` succeeds, `Client.transaction` completes with result `v` and
the borrowed connection's trace is `BEGIN`, then the processor's statements,
then `COMMIT`, in that order. -/
theorem Client.transaction_success {T ε : Type} (beh : ExecBeh ε)
    (proc : Processor T ε) (c : TConn) (rest : List TConn) (v : T)
    (s1 s2 s3 : ConnectionState) (ss : List String)
    (hb : beh.exec c.state "BEGIN" = (none, s1))
    (hp : proc.run s1 = (Except.ok v, s2, ss))
    (hc : beh.exec s2 "COMMIT" = (none, s3)) :
    ∃ pl cl,
      Client.transaction (some (c :: rest)) beh proc =
        UseOutcome.completed (Except.ok v) pl cl
          { state := s3, trace := c.trace ++ "BEGIN" :: (ss ++ ["COMMIT"]) } := by
  have hfn : Client.transactionFn beh proc c =
      (Except.ok v,
       { state := s3, trace := c.trace ++ "BEGIN" :: (ss ++ ["COMMIT"]) }) := by
    simp [Client.transactionFn, execOn, Processor.runOn, hb, hp, hc]
  by_cases hs : s3 = ConnectionState.Closed
  · exact ⟨rest, Cleanup.removed,
      by simp [Client.transaction, Client.useConnection, hfn, hs]⟩
  · exact ⟨{ state := s3, trace := c.trace ++ "BEGIN" :: (ss ++ ["COMMIT"]) } :: rest,
      Cleanup.returned,
      by simp [Client.transaction, Client.useConnection, hfn, hs]⟩

/-- Witness for C1: a processor executing one `INSERT` and returning 42. -/
theorem Client.transaction_success_witness :
    ∃ pl cl,
      Client.transaction (some [connOk]) behOk procOk =
        UseOutcome.completed (Except.ok 42) pl cl
          { state := ConnectionState.Connected,
            trace := ["BEGIN", "INSERT", "COMMIT"] } := by
  have h := Client.transaction_success behOk procOk connOk []
    42 ConnectionState.Connected ConnectionState.Connected
    ConnectionState.Connected ["INSERT"] rfl rfl rfl
  exact h

/-- C2: when `BEGIN` succeeds and the processor raises `e`: if the connection
is still `Connected` when the error is caught (and the rollback statement
itself goes through), `ROLLBACK` is executed after the processor's statements
and `e` is propagated unchanged; if the connection is no longer `Connected`,
no `ROLLBACK` is attempted (the trace ends with the processor's statements)
and `e` is still propagated unchanged. -/
theorem Client.transaction_processor_error {T ε : Type} (beh : ExecBeh ε)
    (proc : Processor T ε) (c : TConn) (rest : List TConn) (e : ε)
    (s1 s2 : ConnectionState) (ss : List String)
    (hb : beh.exec c.state "BEGIN" = (none, s1))
    (hp : proc.run s1 = (Except.error e, s2, ss)) :
    (∀ s3, s2 = ConnectionState.Connected →
      beh.exec s2 "ROLLBACK" = (none, s3) →
      ∃ pl cl, Client.transaction (some (c :: rest)) beh proc =
        UseOutcome.completed (Except.error e) pl cl
          { state := s3, trace := c.trace ++ "BEGIN" :: (ss ++ ["ROLLBACK"]) })
  ∧ (s2 ≠ ConnectionState.Connected →
      ∃ pl cl, Client.transaction (some (c :: rest)) beh proc =
        UseOutcome.completed (Except.error e) pl cl
          { state := s2, trace := c.trace ++ "BEGIN" :: ss }) := by
  constructor
  · intro s3 hs2 hr
    subst hs2
    have hfn : Client.transactionFn beh proc c =
        (Except.error e,
         { state := s3, trace := c.trace ++ "BEGIN" :: (ss ++ ["ROLLBACK"]) }) := by
      simp [Client.transactionFn, Client.transactionCatch, execOn,
        Processor.runOn, hb, hp, hr]
    by_cases hs : s3 = ConnectionState.Closed
    · exact ⟨rest, Cleanup.removed,
        by simp [Client.transaction, Client.useConnection, hfn, hs]⟩
    · exact ⟨{ state := s3,
               trace := c.trace ++ "BEGIN" :: (ss ++ ["ROLLBACK"]) } :: rest,
        Cleanup.returned,
        by simp [Client.transaction, Client.useConnection, hfn, hs]⟩
  · intro hs2
    have hfn : Client.transactionFn beh proc c =
        (Except.error e, { state := s2, trace := c.trace ++ "BEGIN" :: ss }) := by
      simp [Client.transactionFn, Client.transactionCatch, execOn,
        Processor.runOn, hb, hp, hs2]
    by_cases hs : s2 = ConnectionState.Closed
    · exact ⟨rest, Cleanup.removed,
        by simp [Client.transaction, Client.useConnection, hfn, hs]⟩
    · exact ⟨{ state := s2, trace := c.trace ++ "BEGIN" :: ss } :: rest,
        Cleanup.returned,
        by simp [Client.transaction, Client.useConnection, hfn, hs]⟩

/-- Witness for C2: both branches at concrete processors — one failing with
the session still connected (rollback runs), one failing with the session
closed (no rollback). -/
theorem Client.transaction_processor_error_witness :
    (∃ pl cl, Client.transaction (some [connOk]) behOk procFail =
      UseOutcome.completed (Except.error 1) pl cl
        { state := ConnectionState.Connected,
          trace := ["BEGIN", "INSERT", "ROLLBACK"] })
  ∧ (∃ pl cl, Client.transaction (some [connOk]) behOk procFailClosed =
      UseOutcome.completed (Except.error 1) pl cl
        { state := ConnectionState.Closed, trace := ["BEGIN", "INSERT"] }) := by
  constructor
  · exact (Client.transaction_processor_error behOk procFail connOk [] 1
      ConnectionState.Connected ConnectionState.Connected ["INSERT"]
      rfl rfl).1 ConnectionState.Connected rfl rfl
  · exact (Client.transaction_processor_error behOk procFailClosed connOk [] 1
      ConnectionState.Connected ConnectionState.Closed ["INSERT"]
      rfl rfl).2 (by decide)

/-- Counterexample to C3: with a processor that raises error `1` (session
still connected) and a connection on which `ROLLBACK` itself raises error
`2`, `Client.transaction` propagates the rollback's error `2` — the
processor's original error `1` is replaced, not preserved. -/
theorem Client.transaction_rollback_error_replaces :
    (Client.transaction (some [connOk]) behRollbackFails procFail).result? =
        some (Except.error 2)
  ∧ (Client.transaction (some [connOk]) behRollbackFails procFail).result? ≠
        some (Except.error 1) := by
  have h : (Client.transaction (some [connOk]) behRollbackFails
      procFail).result? = some (Except.error 2) := rfl
  refine ⟨h, ?_⟩
  rw [h]
  simp

/-- C3 (amended): when the processor raises `e`, the connection is still
`Connected`, and the `ROLLBACK` statement itself raises `e2`, the error the
caller sees is `e2` — the rollback failure replaces the processor's
original error rather than being swallowed.  (The original error's message
is logged before the rollback attempt; only the propagated error changes.) -/
theorem Client.transaction_rollback_failure {T ε : Type} (beh : ExecBeh ε)
    (proc : Processor T ε) (c : TConn) (rest : List TConn) (e e2 : ε)
    (s1 s3 : ConnectionState) (ss : List String)
    (hb : beh.exec c.state "BEGIN" = (none, s1))
    (hp : proc.run s1 = (Except.error e, ConnectionState.Connected, ss))
    (hr : beh.exec ConnectionState.Connected "ROLLBACK" = (some e2, s3)) :
    ∃ pl cl, Client.transaction (some (c :: rest)) beh proc =
      UseOutcome.completed (Except.error e2) pl cl
        { state := s3, trace := c.trace ++ "BEGIN" :: (ss ++ ["ROLLBACK"]) } := by
  have hfn : Client.transactionFn beh proc c =
      (Except.error e2,
       { state := s3, trace := c.trace ++ "BEGIN" :: (ss ++ ["ROLLBACK"]) }) := by
    simp [Client.transactionFn, Client.transactionCatch, execOn,
      Processor.runOn, hb, hp, hr]
  by_cases hs : s3 = ConnectionState.Closed
  · exact ⟨rest, Cleanup.removed,
      by simp [Client.transaction, Client.useConnection, hfn, hs]⟩
  · exact ⟨{ state := s3,
             trace := c.trace ++ "BEGIN" :: (ss ++ ["ROLLBACK"]) } :: rest,
      Cleanup.returned,
      by simp [Client.transaction, Client.useConnection, hfn, hs]⟩

/-- Witness for the amended C3 at the counterexample's inputs. -/
theorem Client.transaction_rollback_failure_witness :
    ∃ pl cl, Client.transaction (some [connOk]) behRollbackFails procFail =
      UseOutcome.completed (Except.error 2) pl cl
        { state := ConnectionState.Connected,
          trace := ["BEGIN", "INSERT", "ROLLBACK"] } :=
  Client.transaction_rollback_failure behRollbackFails procFail connOk [] 1 2
    ConnectionState.Connected ConnectionState.Connected ["INSERT"]
    rfl rfl rfl

/-- C4: every borrow through `Client.useConnection` — and therefore every
`Client.query`, `Client.execute` and `Client.transaction` call, which are
definitionally borrows through it — completes with the body's own result
(returned value or raised error) and runs the one `finally` cleanup: the
borrowed connection is removed from the pool when its state is `CLOSED`,
and returned to the pool otherwise. -/
theorem Client.useConnection_cleanup {T ε : Type} (c : TConn)
    (rest : List TConn) (fn : TConn → Except ε T × TConn) :
    ∃ pl cl,
      Client.useConnection (some (c :: rest)) fn =
        UseOutcome.completed (fn c).1 pl cl (fn c).2
      ∧ ((fn c).2.state = ConnectionState.Closed →
          cl = Cleanup.removed ∧ pl = rest)
      ∧ ((fn c).2.state ≠ ConnectionState.Closed →
          cl = Cleanup.returned ∧ pl = (fn c).2 :: rest) := by
  by_cases h : (fn c).2.state = ConnectionState.Closed
  · exact ⟨rest, Cleanup.removed,
      by simp [Client.useConnection, h],
      fun _ => ⟨rfl, rfl⟩, fun hc => absurd h hc⟩
  · exact ⟨(fn c).2 :: rest, Cleanup.returned,
      by simp [Client.useConnection, h],
      fun hc => absurd hc h, fun _ => ⟨rfl, rfl⟩⟩

/-- Witness for C4: a body that raises error `9` and leaves the connection
`Closed` still gets the cleanup — the connection is removed from the pool
and the error propagated. -/
theorem Client.useConnection_cleanup_witness :
    Client.useConnection (some [connOk])
        (fun c => ((Except.error 9 : Except Nat Nat),
                   { c with state := ConnectionState.Closed })) =
      UseOutcome.completed (Except.error 9) [] Cleanup.removed
        { state := ConnectionState.Closed, trace := [] } := by
  obtain ⟨pl, cl, heq, hclosed, -⟩ := Client.useConnection_cleanup connOk []
    (fun c => ((Except.error 9 : Except Nat Nat),
               { c with state := ConnectionState.Closed }))
  obtain ⟨h1, h2⟩ := hclosed rfl
  rw [h1, h2] at heq
  exact heq

/-- C6: after two successful releases, `MysqlClientPool.acquire` hands out
the most recently released client first (LIFO), and every completed acquire
logs the removal from the idle stack before the acquire event — the acquired
client is already out of the stack when the event is dispatched. -/
theorem MysqlClientPool.acquire_lifo (p : PoolState) (c1 c2 : MysqlPoolClient)
    (h : p.stack.length + 2 ≤ p.maxSize) :
    (MysqlClientPool.release p c1).err = none
  ∧ (MysqlClientPool.release
      (MysqlClientPool.release p c1).pool c2).err = none
  ∧ MysqlClientPool.acquire
      (MysqlClientPool.release (MysqlClientPool.release p c1).pool c2).pool =
      some { client := c2, pool := { p with stack := c1 :: p.stack },
             log := [PAction.popped c2.id,
                     PAction.event EventKind.acquire c2.id] }
  ∧ (∀ (q : PoolState) (a : AcqResult), MysqlClientPool.acquire q = some a →
      a.log = [PAction.popped a.client.id,
               PAction.event EventKind.acquire a.client.id]
      ∧ q.stack = a.client :: a.pool.stack) := by
  have h1 : ¬ p.maxSize ≤ p.stack.length := by omega
  have e1 : MysqlClientPool.release p c1 =
      { err := none, pool := { p with stack := c1 :: p.stack }, client := c1,
        log := [PAction.event EventKind.release c1.id,
                PAction.pushed c1.id] } := by
    simp [MysqlClientPool.release, stackPush, h1]
  have h2 : ¬ p.maxSize ≤ p.stack.length + 1 := by omega
  have e2 : MysqlClientPool.release { p with stack := c1 :: p.stack } c2 =
      { err := none, pool := { p with stack := c2 :: c1 :: p.stack },
        client := c2,
        log := [PAction.event EventKind.release c2.id,
                PAction.pushed c2.id] } := by
    simp [MysqlClientPool.release, stackPush, h2]
  refine ⟨by rw [e1], by rw [e1]; rw [e2], ?_, ?_⟩
  · rw [e1]
    rw [e2]
    simp [MysqlClientPool.acquire, stackPop]
  · intro q a ha
    cases hq : q.stack with
    | nil => simp [MysqlClientPool.acquire, stackPop, hq] at ha
    | cons c rest =>
      simp only [MysqlClientPool.acquire, stackPop, hq,
        Option.some.injEq] at ha
      subst ha
      exact ⟨rfl, by simp [hq]⟩

/-- Witness for C6 on a pool of capacity 3 holding one idle client:
releasing clients 1 then 2 makes acquire return client 2. -/
theorem MysqlClientPool.acquire_lifo_witness :
    (MysqlClientPool.release samplePool (pooledClient 1)).err = none
  ∧ (MysqlClientPool.release
      (MysqlClientPool.release samplePool (pooledClient 1)).pool
      (pooledClient 2)).err = none
  ∧ MysqlClientPool.acquire
      (MysqlClientPool.release
        (MysqlClientPool.release samplePool (pooledClient 1)).pool
        (pooledClient 2)).pool =
      some { client := pooledClient 2,
             pool := { samplePool with
                       stack := pooledClient 1 :: samplePool.stack },
             log := [PAction.popped 2,
                     PAction.event EventKind.acquire 2] } := by
  have h := MysqlClientPool.acquire_lifo samplePool (pooledClient 1)
    (pooledClient 2) (by decide)
  exact ⟨h.1, h.2.1, h.2.2.1⟩

/-- C7: `MysqlClientPool.close` sets `connected` to false; every idle client
gets a close event followed by an underlying connection close, in stack
order, and ends with its connection `Closed`; no action of the call concerns
any client outside the idle stack (checked-out clients are unaffected). -/
theorem MysqlClientPool.close_spec (p : PoolState) :
    (MysqlClientPool.close p).err = none
  ∧ (MysqlClientPool.close p).pool.connected = false
  ∧ (MysqlClientPool.close p).pool.stack =
      p.stack.map (fun c => { c with connState := ConnectionState.Closed })
  ∧ (MysqlClientPool.close p).log =
      p.stack.flatMap (fun c =>
        [PAction.event EventKind.close c.id, PAction.connClose c.id])
  ∧ (∀ c : MysqlPoolClient, c.id ∉ p.stack.map MysqlPoolClient.id →
      ∀ a ∈ (MysqlClientPool.close p).log, PAction.id a ≠ c.id) := by
  refine ⟨rfl, rfl, rfl, rfl, ?_⟩
  intro c hc a ha heq
  have ha2 : a ∈ p.stack.flatMap (fun c =>
      [PAction.event EventKind.close c.id, PAction.connClose c.id]) := ha
  rcases List.mem_flatMap.mp ha2 with ⟨c', hc', ha'⟩
  simp only [List.mem_cons, List.not_mem_nil, or_false] at ha'
  have hid : PAction.id a = c'.id := by
    rcases ha' with rfl | rfl <;> rfl
  exact hc (List.mem_map.mpr ⟨c', hc', by rw [← hid]; exact heq⟩)

/-- Witness for C7: closing a pool with two idle clients (ids 0, 1) while
client 2 is checked out; no action concerns client 2. -/
theorem MysqlClientPool.close_spec_witness :
    (MysqlClientPool.close poolTwoIdle).err = none
  ∧ (MysqlClientPool.close poolTwoIdle).pool.connected = false
  ∧ (MysqlClientPool.close poolTwoIdle).pool.stack =
      [{ pooledClient 0 with connState := ConnectionState.Closed },
       { pooledClient 1 with connState := ConnectionState.Closed }]
  ∧ (MysqlClientPool.close poolTwoIdle).log =
      [PAction.event EventKind.close 0, PAction.connClose 0,
       PAction.event EventKind.close 1, PAction.connClose 1]
  ∧ PAction.id (PAction.connClose 0) ≠ (pooledClient 2).id := by
  have h := MysqlClientPool.close_spec poolTwoIdle
  refine ⟨h.1, h.2.1, by rw [h.2.2.1]; rfl, by rw [h.2.2.2.1]; rfl, ?_⟩
  exact h.2.2.2.2 (pooledClient 2) (by decide)
    (PAction.connClose 0) (by decide)

/-- One `connect` iteration with room on the stack provisions the client
with `release` overwritten, eagerly connected iff not lazy, and pushes it. -/
theorem connectStep_ok (p : PoolState) (i : Nat)
    (h : p.stack.length < p.maxSize) :
    MysqlClientPool.connectStep p i =
      Except.ok
        ({ p with stack := provClient p.lazyInitialization i :: p.stack },
         provLog p.lazyInitialization i) := by
  have h' : ¬ p.maxSize ≤ p.stack.length := by omega
  cases hl : p.lazyInitialization <;>
    simp [MysqlClientPool.connectStep, stackPush, h', provClient, provLog, hl]

/-- The provisioning loop, given room for all remaining ids: every id turns
into a provisioned client pushed onto the stack (most recent on top), the
logs accumulate in order, and `connected` ends true. -/
theorem connectGo_ok (ids : List Nat) : ∀ (p : PoolState) (log : List PAction),
    p.stack.length + ids.length ≤ p.maxSize →
    MysqlClientPool.connectGo p ids log =
      { err := none,
        pool := { p with
                  connected := true
                  stack := (ids.map (provClient p.lazyInitialization)).reverse
                             ++ p.stack },
        log := log ++ ids.flatMap (provLog p.lazyInitialization) } := by
  induction ids with
  | nil =>
    intro p log h
    simp [MysqlClientPool.connectGo]
  | cons i rest ih =>
    intro p log h
    have hlt : p.stack.length < p.maxSize := by
      simp only [List.length_cons] at h; omega
    have h' : (provClient p.lazyInitialization i :: p.stack).length
        + rest.length ≤ p.maxSize := by
      simp only [List.length_cons] at h ⊢
      omega
    rw [MysqlClientPool.connectGo, connectStep_ok p i hlt]
    show MysqlClientPool.connectGo
        { p with stack := provClient p.lazyInitialization i :: p.stack } rest
        (log ++ provLog p.lazyInitialization i) = _
    rw [ih { p with stack := provClient p.lazyInitialization i :: p.stack }
      (log ++ provLog p.lazyInitialization i) h']
    simp [List.append_assoc]

/-- The provisioning loop on a stack already at capacity: the first push
raises the max-pool-size error, which propagates out of `connect`, leaving
the stack untouched and `connected` not set — but the failing iteration's
eager connection open and connect event (when not lazy) have already
happened and remain in the log. -/
theorem connectGo_full (p : PoolState) (i : Nat) (rest : List Nat)
    (log : List PAction) (h : p.maxSize ≤ p.stack.length) :
    MysqlClientPool.connectGo p (i :: rest) log =
      { err := some maxPoolErr, pool := p,
        log := log ++ (if p.lazyInitialization then []
                       else [PAction.connConnect i,
                             PAction.event EventKind.connect i]) } := by
  cases hl : p.lazyInitialization <;>
    simp [MysqlClientPool.connectGo, MysqlClientPool.connectStep, stackPush,
      h, hl]

/-- C8 (amended): on an empty idle stack, `MysqlClientPool.connect`
provisions exactly `maxSize` pooled clients — all with `release` overwritten
— pushes every one onto the idle stack and then sets `connected` to true,
and for each slot the underlying connection is opened (and a connect event
dispatched) iff `lazyInitialization` is false.  `connect()` is not
idempotent-safe, but a second call does not create a further `maxSize`
slots: with the deferred stack at capacity, its first push raises the
"Max pool size reached" error, which propagates with no slot added and
`connected` left as it was — though that failing first iteration still
eagerly opens its fresh connection and dispatches its connect event (when
not lazy) before the push throws. -/
theorem MysqlClientPool.connect_spec (p : PoolState) (startId : Nat)
    (h : p.stack = []) :
    MysqlClientPool.connect p startId =
      { err := none,
        pool := { p with
                  connected := true
                  stack := (((List.range p.maxSize).map (fun k => startId + k)).map
                              (provClient p.lazyInitialization)).reverse },
        log := ((List.range p.maxSize).map (fun k => startId + k)).flatMap
                 (provLog p.lazyInitialization) }
  ∧ (MysqlClientPool.connect p startId).pool.stack.length = p.maxSize
  ∧ (∀ k, k < p.maxSize →
      ((PAction.connConnect (startId + k) ∈ (MysqlClientPool.connect p startId).log
        ∧ PAction.event EventKind.connect (startId + k) ∈
            (MysqlClientPool.connect p startId).log)
        ↔ p.lazyInitialization = false))
  ∧ (∀ (q : PoolState) (s2 : Nat), 0 < q.maxSize →
      q.maxSize ≤ q.stack.length →
      MysqlClientPool.connect q s2 =
        { err := some maxPoolErr, pool := q,
          log := if q.lazyInitialization then []
                 else [PAction.connConnect s2,
                       PAction.event EventKind.connect s2] }) := by
  have hmain : MysqlClientPool.connect p startId =
      { err := none,
        pool := { p with
                  connected := true
                  stack := (((List.range p.maxSize).map (fun k => startId + k)).map
                              (provClient p.lazyInitialization)).reverse },
        log := ((List.range p.maxSize).map (fun k => startId + k)).flatMap
                 (provLog p.lazyInitialization) } := by
    rw [MysqlClientPool.connect,
      connectGo_ok ((List.range p.maxSize).map (fun k => startId + k)) p []
        (by simp [h])]
    simp [h]
  refine ⟨hmain, ?_, ?_, ?_⟩
  · rw [hmain]
    simp
  · intro k hk
    rw [hmain]
    constructor
    · rintro ⟨hmem, -⟩
      rcases List.mem_flatMap.mp hmem with ⟨i, hi, hmem'⟩
      cases hl : p.lazyInitialization
      · rfl
      · rw [hl] at hmem'
        simp [provLog] at hmem'
    · intro hl
      have hid : startId + k ∈ (List.range p.maxSize).map (fun k => startId + k) :=
        List.mem_map.mpr ⟨k, List.mem_range.mpr hk, rfl⟩
      exact ⟨List.mem_flatMap.mpr ⟨startId + k, hid, by simp [provLog, hl]⟩,
             List.mem_flatMap.mpr ⟨startId + k, hid, by simp [provLog, hl]⟩⟩
  · intro q s2 hpos hfull
    obtain ⟨m, hm⟩ : ∃ m, q.maxSize = m + 1 := ⟨q.maxSize - 1, by omega⟩
    obtain ⟨rest, hcons⟩ :
        ∃ rest, (List.range q.maxSize).map (fun k => s2 + k)
          = (s2 + 0) :: rest := by
      refine ⟨((List.range m).map Nat.succ).map (fun k => s2 + k), ?_⟩
      rw [hm, List.range_succ_eq_map]
      simp
    rw [MysqlClientPool.connect, hcons,
      connectGo_full q (s2 + 0) rest [] hfull]
    cases hl : q.lazyInitialization <;> simp [hl]

/-- Counterexample to C8 as stated: on an eager pool of capacity 1, the
first `connect()` fills the single slot; a second `connect()` does not end
with `2 × maxSize = 2` slots — it raises "Max pool size reached" and the
idle stack still holds one client. -/
theorem MysqlClientPool.connect_not_doubling :
    (MysqlClientPool.connect (MysqlClientPool.connect emptyPool1 0).pool 1).err
        = some maxPoolErr
  ∧ (MysqlClientPool.connect
      (MysqlClientPool.connect emptyPool1 0).pool 1).pool.stack.length = 1 := by
  decide

/-- Witness for the amended C8: a capacity-1 eager pool is provisioned with
one connected client whose `release` is overwritten; the connect event is
dispatched (the pool is not lazy); a full eager pool's `connect` fails with
no slot added, after its first iteration's eager connection open and
connect event. -/
theorem MysqlClientPool.connect_spec_witness :
    MysqlClientPool.connect emptyPool1 0 =
      { err := none,
        pool := { emptyPool1 with
                  connected := true
                  stack := [provClient false 0] },
        log := [PAction.connConnect 0, PAction.event EventKind.connect 0,
                PAction.pushed 0] }
  ∧ ((PAction.connConnect 0 ∈ (MysqlClientPool.connect emptyPool1 0).log
      ∧ PAction.event EventKind.connect 0 ∈
          (MysqlClientPool.connect emptyPool1 0).log)
      ↔ emptyPool1.lazyInitialization = false)
  ∧ MysqlClientPool.connect fullPool 5 =
      { err := some maxPoolErr, pool := fullPool,
        log := [PAction.connConnect 5,
                PAction.event EventKind.connect 5] } := by
  have h := MysqlClientPool.connect_spec emptyPool1 0 rfl
  refine ⟨?_, h.2.2.1 0 (by decide), ?_⟩
  · rw [h.1]
    rfl
  · have h4 := h.2.2.2 fullPool 5 (by decide) (by decide)
    simpa [fullPool] using h4
